import Mathlib

/-!
Verification of the Smart-Attendance-Recognition-System core.

Shallow embedding of:
* `backend/services/face_recognition_service.py` — the `FaceRecognitionService`
  parallel lists, `load_known_faces` / `reload_known_faces`, and the per-face
  matching logic of `recognize_faces` (argmin over distances, tolerance
  threshold, confidence computation).
* `backend/api/camera.py` — the per-result attendance logging loop of
  `recognize_current_frame` / `recognize_uploaded_image` (5-minute cooldown
  query, unknown-face logging).
* `backend/api/attendance.py` — the student time-window checks of
  `log_attendance`.

Numbers (distances, tolerances, timestamps) are embedded as rationals ℚ.
The distance metric itself is computed by the external `face_recognition`
library (`face_recognition.face_distance`, a Euclidean distance); it is not
part of this repository's source, so the matcher is parametrised by an
arbitrary distance function `dist`, and every matcher theorem holds for every
such function — in particular for the Euclidean one.
-/

/-- Embedding vector: a face encoding, as handed around by the service. -/
abbrev Embedding := List ℚ

/-- First element of a list of distances that attains the minimum value;
`listMin [] = 0` is an arbitrary default never used on empty input.
Mirrors the value `face_distances[np.argmin(face_distances)]`. -/
def listMin : List ℚ → ℚ
  | [] => 0
  | [x] => x
  | x :: y :: t => min x (listMin (y :: t))

/-- Index of the first occurrence of the minimum, mirroring `np.argmin`
(which returns the first index attaining the minimum). -/
def argminIdx : List ℚ → Nat
  | [] => 0
  | [_] => 0
  | x :: y :: t => if x ≤ listMin (y :: t) then 0 else argminIdx (y :: t) + 1

theorem listMin_le : ∀ (l : List ℚ), ∀ a ∈ l, listMin l ≤ a
  | [] => by intro a ha; simp at ha
  | [x] => by
    intro a ha
    simp only [List.mem_singleton] at ha
    simp [listMin, ha]
  | x :: y :: t => by
    intro a ha
    have ih := listMin_le (y :: t)
    rcases List.mem_cons.1 ha with h | h
    · simp [listMin, h, min_le_left]
    · exact le_trans (by simp [listMin, min_le_right]) (ih a h)

theorem listMin_mem : ∀ (l : List ℚ), l ≠ [] → listMin l ∈ l
  | [] => by intro h; exact absurd rfl h
  | [x] => by intro _; simp [listMin]
  | x :: y :: t => by
    intro _
    have ih := listMin_mem (y :: t) (by simp)
    rcases le_total x (listMin (y :: t)) with h | h
    · simp [listMin, min_eq_left h]
    · simp only [listMin, min_eq_right h]
      exact List.mem_cons_of_mem _ ih

theorem argminIdx_lt : ∀ (l : List ℚ), l ≠ [] → argminIdx l < l.length
  | [] => by intro h; exact absurd rfl h
  | [x] => by intro _; simp [argminIdx]
  | x :: y :: t => by
    intro _
    have ih : argminIdx (y :: t) < t.length + 1 := by
      simpa using argminIdx_lt (y :: t) (by simp)
    simp only [argminIdx, List.length_cons]
    by_cases h : x ≤ listMin (y :: t)
    · simp [h]
    · simp only [if_neg h]
      omega

theorem argminIdx_getD : ∀ (l : List ℚ), l ≠ [] →
    l.getD (argminIdx l) 0 = listMin l
  | [] => by intro h; exact absurd rfl h
  | [x] => by intro _; simp [argminIdx, listMin]
  | x :: y :: t => by
    intro _
    have ih := argminIdx_getD (y :: t) (by simp)
    by_cases h : x ≤ listMin (y :: t)
    · simp [argminIdx, h, listMin, min_eq_left h]
    · have hlt : listMin (y :: t) < x := lt_of_not_le h
      simp only [argminIdx, if_neg h, listMin, min_eq_right (le_of_lt hlt)]
      simpa using ih

theorem argminIdx_first : ∀ (l : List ℚ), ∀ j < argminIdx l,
    listMin l < l.getD j 0
  | [] => by intro j hj; simp [argminIdx] at hj
  | [x] => by intro j hj; simp [argminIdx] at hj
  | x :: y :: t => by
    intro j hj
    have ih := argminIdx_first (y :: t)
    by_cases h : x ≤ listMin (y :: t)
    · simp [argminIdx, h] at hj
    · have hlt : listMin (y :: t) < x := lt_of_not_le h
      simp only [argminIdx, if_neg h] at hj
      match j with
      | 0 => simpa [listMin, min_eq_right (le_of_lt hlt)] using hlt
      | Nat.succ j' =>
        have hj' : j' < argminIdx (y :: t) := by omega
        simpa [listMin, min_eq_right (le_of_lt hlt)] using ih j' hj'

/-- State of `FaceRecognitionService`: the three parallel lists and the
configured tolerance (`settings.FACE_RECOGNITION_TOLERANCE`, default 0.6). -/
structure FaceRecognitionService where
  known_face_encodings : List Embedding
  known_face_ids : List Nat
  known_face_names : List String
  tolerance : ℚ
deriving Repr, DecidableEq

/-- One entry of `recognize_faces`'s result list (the fields the attendance
logic consumes; bounding box and timestamp are omitted as inert payload). -/
structure RecognitionResult where
  user_id : Option Nat
  name : String
  confidence : ℚ
  is_recognized : Bool
deriving Repr, DecidableEq

/-- `face_recognition.face_distance(self.known_face_encodings, face_encoding)`:
the list of distances from each known encoding to the probe, for an abstract
distance function `dist`. -/
def faceDistances (svc : FaceRecognitionService)
    (dist : Embedding → Embedding → ℚ) (probe : Embedding) : List ℚ :=
  svc.known_face_encodings.map (fun e => dist e probe)

/-- `best_match_distance` for a non-empty index: the value at the argmin. -/
def bestDistance (svc : FaceRecognitionService)
    (dist : Embedding → Embedding → ℚ) (probe : Embedding) : ℚ :=
  listMin (faceDistances svc dist probe)

/-- The per-encoding body of `recognize_faces`
(`face_recognition_service.py` lines 99–143): empty index → unknown with
confidence 0; otherwise argmin over the distances, recognized iff
`best_match_distance <= self.tolerance`, confidence `1.0 - best_match_distance`
in both branches (the source has no clamping). -/
def recognizeEncoding (svc : FaceRecognitionService)
    (dist : Embedding → Embedding → ℚ) (probe : Embedding) : RecognitionResult :=
  if svc.known_face_encodings.length = 0 then
    { user_id := none, name := "Unknown", confidence := 0, is_recognized := false }
  else
    let ds := faceDistances svc dist probe
    let i := argminIdx ds
    let d := ds.getD i 0
    if d ≤ svc.tolerance then
      { user_id := some (svc.known_face_ids.getD i 0)
        name := svc.known_face_names.getD i "Unknown"
        confidence := 1 - d
        is_recognized := true }
    else
      { user_id := none, name := "Unknown", confidence := 1 - d,
        is_recognized := false }

/-! ## Loading and reloading known faces

`load_known_faces` iterates over the `.pkl` files of the embeddings folder,
unpickles each into a dict and appends `data["encoding"]`, `data["user_id"]`,
`data["name"]` to the three parallel lists, skipping a file (via the
`except` clause) at the first failing step. A stored file is embedded as a
`RawRecord` of three optional fields: `none` means the corresponding dict
access fails (a file that fails to unpickle at all is a record whose
`encoding` is `none`). The appends happen in source order — encoding first,
then user id, then name — and a failure aborts the remaining appends of that
record only. -/

structure RawRecord where
  encoding : Option Embedding
  user_id : Option Nat
  name : Option String
deriving Repr, DecidableEq

/-- The record written by `save_face_encoding`: always carries all three
fields. -/
def savedRecord (uid : Nat) (nm : String) (e : Embedding) : RawRecord :=
  { encoding := some e, user_id := some uid, name := some nm }

/-- A record carrying all three fields (as every record written by
`save_face_encoding` does). -/
def RawRecord.complete (r : RawRecord) : Prop :=
  r.encoding.isSome = true ∧ r.user_id.isSome = true ∧ r.name.isSome = true

instance (r : RawRecord) : Decidable r.complete := by
  unfold RawRecord.complete; infer_instance

/-- Processing one stored file inside the `for filename ...` loop of
`load_known_faces` (lines 44–54): the three appends in source order, aborted
at the first failing dict access, with the exception swallowed. -/
def loadRecord (svc : FaceRecognitionService) (r : RawRecord) :
    FaceRecognitionService :=
  match r.encoding with
  | none => svc
  | some e =>
    let svc1 := { svc with
      known_face_encodings := svc.known_face_encodings ++ [e] }
    match r.user_id with
    | none => svc1
    | some uid =>
      let svc2 := { svc1 with known_face_ids := svc1.known_face_ids ++ [uid] }
      match r.name with
      | none => svc2
      | some nm =>
        { svc2 with known_face_names := svc2.known_face_names ++ [nm] }

/-- `load_known_faces` over a store (the folder's `.pkl` files in
`os.listdir` order): appends every loadable record to the current lists.
A missing folder or unavailable `face_recognition` library corresponds to an
empty store. -/
def load_known_faces (svc : FaceRecognitionService) (store : List RawRecord) :
    FaceRecognitionService :=
  store.foldl loadRecord svc

/-- `reload_known_faces` (lines 58–63): reset the three lists to empty, then
`load_known_faces`. -/
def reload_known_faces (svc : FaceRecognitionService)
    (store : List RawRecord) : FaceRecognitionService :=
  load_known_faces { svc with
    known_face_encodings := []
    known_face_ids := []
    known_face_names := [] } store

/-- The encodings a store contributes: every record whose `encoding` access
succeeds. -/
def loadedEncodings (store : List RawRecord) : List Embedding :=
  store.filterMap (fun r => r.encoding)

/-- The user ids a store contributes: records whose `encoding` and `user_id`
accesses both succeed. -/
def loadedIds (store : List RawRecord) : List Nat :=
  store.filterMap (fun r => match r.encoding with
    | none => none
    | some _ => r.user_id)

/-- The names a store contributes: records where all three accesses
succeed. -/
def loadedNames (store : List RawRecord) : List String :=
  store.filterMap (fun r => match r.encoding, r.user_id with
    | some _, some _ => r.name
    | _, _ => none)

/-! ## Camera attendance logging (`backend/api/camera.py`)

The recognized branch of the result loop (lines 93–115 of
`recognize_current_frame`, identically lines 175–197 of
`recognize_uploaded_image`): query for an `AttendanceLog` row of the same
user with `timestamp >= now - 5 minutes`; insert a new row only when none
exists. Timestamps are rationals measured in minutes. -/

structure AttendanceLogEntry where
  user_id : Nat
  timestamp : ℚ
deriving Repr, DecidableEq

/-- `timedelta(minutes=5)` — the dedup window. -/
def cooldownMinutes : ℚ := 5

/-- The `recent_log` query: some row of this user with
`timestamp >= now - 5 minutes`. -/
def hasRecentLog (logs : List AttendanceLogEntry) (uid : Nat) (now : ℚ) :
    Bool :=
  logs.any (fun l => l.user_id == uid && decide (now - cooldownMinutes ≤ l.timestamp))

/-- The recognized branch for one result: suppress when a recent log exists,
otherwise insert a new `AttendanceLog` row (timestamp defaults to the current
time). Returns the new log list and whether the event was accepted. -/
def logRecognized (logs : List AttendanceLogEntry) (uid : Nat) (now : ℚ) :
    List AttendanceLogEntry × Bool :=
  if hasRecentLog logs uid now then (logs, false)
  else (logs ++ [{ user_id := uid, timestamp := now }], true)

/-- A sequence of recognized-match arrivals `(user_id, arrival time)` fed
through the accept step, starting from a given log table. -/
def processAccepts (logs : List AttendanceLogEntry)
    (events : List (Nat × ℚ)) : List AttendanceLogEntry :=
  events.foldl (fun ls e => (logRecognized ls e.1 e.2).1) logs

/-- Two accepted rows of the same identity are always more than a full
cooldown window apart (later row strictly later). -/
def CooldownSeparated (logs : List AttendanceLogEntry) : Prop :=
  logs.Pairwise (fun a b =>
    a.user_id = b.user_id → a.timestamp + cooldownMinutes < b.timestamp)

/-- Database state touched by the camera result loop: the attendance rows and
the number of `UnknownFace` rows. -/
structure CameraState where
  logs : List AttendanceLogEntry
  unknown_count : Nat
deriving Repr, DecidableEq

/-- One iteration of the result loop: recognized results go through the
cooldown gate, unrecognized results unconditionally insert an `UnknownFace`
row. (`recognize_faces` never produces a recognized result without a user id;
that case is dead code and leaves the state unchanged here.) -/
def processResult (s : CameraState) (now : ℚ) (r : RecognitionResult) :
    CameraState :=
  if r.is_recognized then
    match r.user_id with
    | some uid => { s with logs := (logRecognized s.logs uid now).1 }
    | none => s
  else
    { s with unknown_count := s.unknown_count + 1 }

/-- The whole result loop of `recognize_current_frame`. -/
def processResults (s : CameraState) (now : ℚ)
    (rs : List RecognitionResult) : CameraState :=
  rs.foldl (fun st r => processResult st now r) s

/-! ## Student time windows (`backend/api/attendance.py`, `log_attendance`)

Times of day are rationals measured in seconds since midnight; the check
uses `datetime.now().time()` only, so it is date-independent by
construction. -/

structure User where
  id : Nat
  role : String
deriving Repr, DecidableEq

structure AttendanceLogCreate where
  user_id : Nat
  event_type : String
deriving Repr, DecidableEq

structure AttendanceRecord where
  user_id : Nat
  event_type : String
deriving Repr, DecidableEq

inductive AttendanceError where
  | userNotFound
  | outsideTimeWindow
deriving Repr, DecidableEq

/-- 08:30, as seconds since midnight. -/
def signin_start : ℚ := 8 * 3600 + 30 * 60
/-- 09:00. -/
def signin_end : ℚ := 9 * 3600
/-- 13:30. -/
def logout_start : ℚ := 13 * 3600 + 30 * 60
/-- 14:00. -/
def logout_end : ℚ := 14 * 3600

/-- `log_attendance` (lines 22–78): look up the user; for students, reject an
`entry` outside 08:30–09:00 and an `exit` outside 13:30–14:00 (both bounds
inclusive, wall-clock time of day) with a 403 before anything is written;
otherwise append the new attendance row. -/
def log_attendance (users : List User) (logs : List AttendanceRecord)
    (req : AttendanceLogCreate) (currentTime : ℚ) :
    Except AttendanceError (List AttendanceRecord) :=
  match users.find? (fun u => u.id == req.user_id) with
  | none => .error .userNotFound
  | some user =>
    if user.role = "student" ∧ req.event_type = "entry" ∧
        ¬(signin_start ≤ currentTime ∧ currentTime ≤ signin_end) then
      .error .outsideTimeWindow
    else if user.role = "student" ∧ req.event_type = "exit" ∧
        ¬(logout_start ≤ currentTime ∧ currentTime ≤ logout_end) then
      .error .outsideTimeWindow
    else
      .ok (logs ++ [{ user_id := req.user_id, event_type := req.event_type }])

/-! ## Helper lemmas about loading -/

theorem load_known_faces_spec : ∀ (store : List RawRecord)
    (svc : FaceRecognitionService),
    load_known_faces svc store =
      { known_face_encodings :=
          svc.known_face_encodings ++ loadedEncodings store
        known_face_ids := svc.known_face_ids ++ loadedIds store
        known_face_names := svc.known_face_names ++ loadedNames store
        tolerance := svc.tolerance }
  | [] => by
    intro svc
    simp [load_known_faces, loadedEncodings, loadedIds, loadedNames]
  | r :: rest => by
    intro svc
    have ih := load_known_faces_spec rest
    have hstep : load_known_faces svc (r :: rest) =
        load_known_faces (loadRecord svc r) rest := rfl
    rcases r with ⟨e?, u?, n?⟩
    match e?, u?, n? with
    | none, u?, n? =>
      rw [hstep, ih]
      simp [loadRecord, loadedEncodings, loadedIds, loadedNames,
        List.filterMap_cons]
    | some e, none, n? =>
      rw [hstep, ih]
      simp [loadRecord, loadedEncodings, loadedIds, loadedNames,
        List.filterMap_cons]
    | some e, some uid, none =>
      rw [hstep, ih]
      simp [loadRecord, loadedEncodings, loadedIds, loadedNames,
        List.filterMap_cons]
    | some e, some uid, some nm =>
      rw [hstep, ih]
      simp [loadRecord, loadedEncodings, loadedIds, loadedNames,
        List.filterMap_cons]

theorem loadedEncodings_of_complete : ∀ (store : List RawRecord),
    (∀ r ∈ store, r.complete) →
    loadedEncodings store = store.map (fun r => r.encoding.getD [])
  | [] => by intro _; simp [loadedEncodings]
  | r :: rest => by
    intro h
    have hr := h r (by simp)
    have ih := loadedEncodings_of_complete rest
      (fun r hmem => h r (List.mem_cons_of_mem _ hmem))
    rcases r with ⟨e?, u?, n?⟩
    rcases hr with ⟨he, hu, hn⟩
    match e? with
    | some e => simp [loadedEncodings, List.filterMap_cons] at ih ⊢; exact ih

theorem loadedIds_of_complete : ∀ (store : List RawRecord),
    (∀ r ∈ store, r.complete) →
    loadedIds store = store.map (fun r => r.user_id.getD 0)
  | [] => by intro _; simp [loadedIds]
  | r :: rest => by
    intro h
    have hr := h r (by simp)
    have ih := loadedIds_of_complete rest
      (fun r hmem => h r (List.mem_cons_of_mem _ hmem))
    rcases r with ⟨e?, u?, n?⟩
    rcases hr with ⟨he, hu, hn⟩
    match e?, u? with
    | some e, some uid =>
      simp [loadedIds, List.filterMap_cons] at ih ⊢; exact ih

theorem loadedNames_of_complete : ∀ (store : List RawRecord),
    (∀ r ∈ store, r.complete) →
    loadedNames store = store.map (fun r => r.name.getD "")
  | [] => by intro _; simp [loadedNames]
  | r :: rest => by
    intro h
    have hr := h r (by simp)
    have ih := loadedNames_of_complete rest
      (fun r hmem => h r (List.mem_cons_of_mem _ hmem))
    rcases r with ⟨e?, u?, n?⟩
    rcases hr with ⟨he, hu, hn⟩
    match e?, u?, n? with
    | some e, some uid, some nm =>
      simp [loadedNames, List.filterMap_cons] at ih ⊢; exact ih

/-! ## Helper lemmas about the cooldown gate -/

theorem hasRecentLog_false_iff (logs : List AttendanceLogEntry) (uid : Nat)
    (now : ℚ) :
    hasRecentLog logs uid now = false ↔
      ∀ l ∈ logs, l.user_id = uid → l.timestamp < now - cooldownMinutes := by
  unfold hasRecentLog
  simp only [List.any_eq_false, Bool.and_eq_true, beq_iff_eq,
    decide_eq_true_eq, not_and, not_le]

theorem logRecognized_preserves_sep (logs : List AttendanceLogEntry)
    (uid : Nat) (now : ℚ) (h : CooldownSeparated logs) :
    CooldownSeparated (logRecognized logs uid now).1 := by
  unfold logRecognized
  by_cases hr : hasRecentLog logs uid now
  · simpa [hr] using h
  · have hall := (hasRecentLog_false_iff logs uid now).1 (by simpa using hr)
    simp only [hr, if_neg, Bool.false_eq_true, not_false_eq_true, if_false]
    unfold CooldownSeparated at h ⊢
    rw [List.pairwise_append]
    refine ⟨h, List.pairwise_singleton _ _, ?_⟩
    intro a ha b hb hab
    simp only [List.mem_singleton] at hb
    subst hb
    have := hall a ha (by simpa using hab)
    simp only at this ⊢
    linarith

theorem processAccepts_preserves_sep (events : List (Nat × ℚ)) :
    ∀ (logs : List AttendanceLogEntry), CooldownSeparated logs →
    CooldownSeparated (processAccepts logs events) := by
  induction events with
  | nil => intro logs h; simpa [processAccepts] using h
  | cons e rest ih =>
    intro logs h
    have hstep : processAccepts logs (e :: rest) =
        processAccepts (logRecognized logs e.1 e.2).1 rest := rfl
    rw [hstep]
    exact ih _ (logRecognized_preserves_sep logs e.1 e.2 h)

/-- C1: a recognized match for an identity arriving strictly within the
5-minute cooldown after an accepted event is suppressed (the log table is
unchanged and no event is accepted); a match arriving strictly after the
cooldown has elapsed since every earlier event of that identity is accepted;
and over every sequence of arrivals starting from an empty table, no identity
ever has two accepted events within one cooldown window (any two of its rows
are more than `cooldownMinutes` apart). -/
theorem camera_cooldown_C1 :
    (∀ (logs : List AttendanceLogEntry) (uid : Nat) (now t0 : ℚ),
       ({ user_id := uid, timestamp := t0 } : AttendanceLogEntry) ∈ logs →
       0 ≤ now - t0 → now - t0 < cooldownMinutes →
       logRecognized logs uid now = (logs, false)) ∧
    (∀ (logs : List AttendanceLogEntry) (uid : Nat) (now : ℚ),
       (∀ l ∈ logs, l.user_id = uid → cooldownMinutes < now - l.timestamp) →
       logRecognized logs uid now =
         (logs ++ [{ user_id := uid, timestamp := now }], true)) ∧
    (∀ events : List (Nat × ℚ), CooldownSeparated (processAccepts [] events)) := by
  refine ⟨?_, ?_, ?_⟩
  · intro logs uid now t0 hmem _ hlt
    have hrecent : hasRecentLog logs uid now = true := by
      unfold hasRecentLog
      rw [List.any_eq_true]
      exact ⟨_, hmem, by simp; linarith⟩
    simp [logRecognized, hrecent]
  · intro logs uid now hall
    have hrecent : hasRecentLog logs uid now = false := by
      rw [hasRecentLog_false_iff]
      intro l hl hu
      have := hall l hl hu
      linarith
    simp [logRecognized, hrecent]
  · intro events
    exact processAccepts_preserves_sep events []
      (by simp [CooldownSeparated])

/-- Witness for C1 at concrete inputs: identity 7 accepted at time 0; a
match at time 3 (< 5 minutes later) is suppressed; a match at time 6
(> 5 minutes later) is accepted; and the three-arrival run
(0, 3, 6 minutes) leaves a cooldown-separated table. -/
theorem camera_cooldown_C1_witness :
    logRecognized [{ user_id := 7, timestamp := 0 }] 7 3 =
      ([{ user_id := 7, timestamp := 0 }], false) ∧
    logRecognized [{ user_id := 7, timestamp := 0 }] 7 6 =
      ([{ user_id := 7, timestamp := 0 }, { user_id := 7, timestamp := 6 }],
        true) ∧
    CooldownSeparated (processAccepts [] [(7, 0), (7, 3), (7, 6)]) :=
  ⟨camera_cooldown_C1.1 [{ user_id := 7, timestamp := 0 }] 7 3 0 (by simp)
      (by norm_num) (by norm_num [cooldownMinutes]),
   camera_cooldown_C1.2.1 [{ user_id := 7, timestamp := 0 }] 7 6
      (by intro l hl hu; simp only [List.mem_singleton] at hl; subst hl
          norm_num [cooldownMinutes]),
   camera_cooldown_C1.2.2 [(7, 0), (7, 3), (7, 6)]⟩

/-! ## Helper lemmas about the matcher -/

theorem faceDistances_ne_nil (svc : FaceRecognitionService)
    (dist : Embedding → Embedding → ℚ) (probe : Embedding)
    (h : svc.known_face_encodings ≠ []) :
    faceDistances svc dist probe ≠ [] := by
  simp [faceDistances, h]

theorem recognizeEncoding_confidence_eq (svc : FaceRecognitionService)
    (dist : Embedding → Embedding → ℚ) (probe : Embedding)
    (h : svc.known_face_encodings ≠ []) :
    (recognizeEncoding svc dist probe).confidence =
      1 - bestDistance svc dist probe := by
  have hne := faceDistances_ne_nil svc dist probe h
  have hlen : ¬(svc.known_face_encodings.length = 0) := by
    simpa [List.length_eq_zero] using h
  have hgd := argminIdx_getD _ hne
  show _ = 1 - listMin (faceDistances svc dist probe)
  rw [← hgd]
  simp only [recognizeEncoding, if_neg hlen]
  by_cases ht : (faceDistances svc dist probe).getD
      (argminIdx (faceDistances svc dist probe)) 0 ≤ svc.tolerance
  · rw [if_pos ht]
  · rw [if_neg ht]

/-- C2: for a non-empty index, `best_match_distance` is the true minimum of
the distances between the probe and the indexed encodings (lower bound and
attained), the result's distance value (recoverable as
`1 - confidence`) equals it, the chosen argmin index is the *first* index
attaining the minimum (every earlier index has a strictly larger distance —
`np.argmin` tie-break = index insertion order), and a recognized result
carries the identity stored at that index; for an empty index the result is
unknown (`user_id = None`) with confidence 0. Stated for an arbitrary
distance function, hence in particular for the Euclidean distance computed
by `face_recognition.face_distance`. -/
theorem matcher_min_C2 (svc : FaceRecognitionService)
    (dist : Embedding → Embedding → ℚ) (probe : Embedding) :
    (svc.known_face_encodings = [] → recognizeEncoding svc dist probe =
      { user_id := none, name := "Unknown", confidence := 0,
        is_recognized := false }) ∧
    (svc.known_face_encodings ≠ [] →
      (∀ e ∈ svc.known_face_encodings,
        bestDistance svc dist probe ≤ dist e probe) ∧
      (∃ e ∈ svc.known_face_encodings,
        bestDistance svc dist probe = dist e probe) ∧
      (recognizeEncoding svc dist probe).confidence =
        1 - bestDistance svc dist probe ∧
      (faceDistances svc dist probe).getD
          (argminIdx (faceDistances svc dist probe)) 0 =
        bestDistance svc dist probe ∧
      (∀ j < argminIdx (faceDistances svc dist probe),
        bestDistance svc dist probe <
          (faceDistances svc dist probe).getD j 0) ∧
      ((recognizeEncoding svc dist probe).is_recognized = true →
        (recognizeEncoding svc dist probe).user_id =
          some (svc.known_face_ids.getD
            (argminIdx (faceDistances svc dist probe)) 0))) := by
  constructor
  · intro h
    simp [recognizeEncoding, h]
  · intro h
    have hne := faceDistances_ne_nil svc dist probe h
    have hlen : ¬(svc.known_face_encodings.length = 0) := by
      simpa [List.length_eq_zero] using h
    refine ⟨?_, ?_, recognizeEncoding_confidence_eq svc dist probe h,
      argminIdx_getD _ hne, argminIdx_first _, ?_⟩
    · intro e he
      exact listMin_le _ _ (List.mem_map_of_mem _ he)
    · have hmem := listMin_mem _ hne
      rcases List.mem_map.1 hmem with ⟨e, he, hd⟩
      exact ⟨e, he, hd.symm⟩
    · intro hrec
      simp only [recognizeEncoding, if_neg hlen] at hrec ⊢
      by_cases ht : (faceDistances svc dist probe).getD
          (argminIdx (faceDistances svc dist probe)) 0 ≤ svc.tolerance
      · rw [if_pos ht]
      · rw [if_neg ht] at hrec
        simp at hrec

/-- Witness for C2 at a concrete one-identity index and constant distance
1/2: minimality, attainment, confidence link, first-argmin tie-break and
identity selection all hold. -/
theorem matcher_min_C2_witness :
    (∀ e ∈ (⟨[[0]], [5], ["A"], 3/5⟩ :
        FaceRecognitionService).known_face_encodings,
      bestDistance ⟨[[0]], [5], ["A"], 3/5⟩ (fun _ _ => 1/2) [0] ≤
        (fun _ _ => (1/2 : ℚ)) e [0]) ∧
    (∃ e ∈ (⟨[[0]], [5], ["A"], 3/5⟩ :
        FaceRecognitionService).known_face_encodings,
      bestDistance ⟨[[0]], [5], ["A"], 3/5⟩ (fun _ _ => 1/2) [0] =
        (fun _ _ => (1/2 : ℚ)) e [0]) ∧
    (recognizeEncoding ⟨[[0]], [5], ["A"], 3/5⟩ (fun _ _ => 1/2)
        [0]).confidence =
      1 - bestDistance ⟨[[0]], [5], ["A"], 3/5⟩ (fun _ _ => 1/2) [0] ∧
    (faceDistances ⟨[[0]], [5], ["A"], 3/5⟩ (fun _ _ => 1/2) [0]).getD
        (argminIdx (faceDistances ⟨[[0]], [5], ["A"], 3/5⟩
          (fun _ _ => 1/2) [0])) 0 =
      bestDistance ⟨[[0]], [5], ["A"], 3/5⟩ (fun _ _ => 1/2) [0] ∧
    (∀ j < argminIdx (faceDistances ⟨[[0]], [5], ["A"], 3/5⟩
        (fun _ _ => 1/2) [0]),
      bestDistance ⟨[[0]], [5], ["A"], 3/5⟩ (fun _ _ => 1/2) [0] <
        (faceDistances ⟨[[0]], [5], ["A"], 3/5⟩ (fun _ _ => 1/2)
          [0]).getD j 0) ∧
    ((recognizeEncoding ⟨[[0]], [5], ["A"], 3/5⟩ (fun _ _ => 1/2)
        [0]).is_recognized = true →
      (recognizeEncoding ⟨[[0]], [5], ["A"], 3/5⟩ (fun _ _ => 1/2)
          [0]).user_id =
        some ((⟨[[0]], [5], ["A"], 3/5⟩ :
          FaceRecognitionService).known_face_ids.getD
            (argminIdx (faceDistances ⟨[[0]], [5], ["A"], 3/5⟩
              (fun _ _ => 1/2) [0])) 0)) :=
  (matcher_min_C2 ⟨[[0]], [5], ["A"], 3/5⟩ (fun _ _ => 1/2) [0]).2 (by simp)

/-- C3: for a non-empty index, `is_recognized` holds iff the best distance is
`<= tolerance` — the boundary (exact equality) counts as recognized, as in
`if best_match_distance <= self.tolerance`. -/
theorem matcher_threshold_C3 (svc : FaceRecognitionService)
    (dist : Embedding → Embedding → ℚ) (probe : Embedding)
    (h : svc.known_face_encodings ≠ []) :
    ((recognizeEncoding svc dist probe).is_recognized = true ↔
      bestDistance svc dist probe ≤ svc.tolerance) := by
  have hne := faceDistances_ne_nil svc dist probe h
  have hlen : ¬(svc.known_face_encodings.length = 0) := by
    simpa [List.length_eq_zero] using h
  have hgd := argminIdx_getD _ hne
  show _ ↔ listMin (faceDistances svc dist probe) ≤ svc.tolerance
  rw [← hgd]
  simp only [recognizeEncoding, if_neg hlen]
  by_cases ht : (faceDistances svc dist probe).getD
      (argminIdx (faceDistances svc dist probe)) 0 ≤ svc.tolerance
  · rw [if_pos ht]
    simpa using ht
  · rw [if_neg ht]
    simpa using ht

/-- Witness for C3: a best distance exactly equal to the tolerance 3/5 is
recognized. -/
theorem matcher_threshold_C3_witness :
    (recognizeEncoding ⟨[[0]], [5], ["A"], 3/5⟩ (fun _ _ => 3/5)
      [0]).is_recognized = true :=
  (matcher_threshold_C3 ⟨[[0]], [5], ["A"], 3/5⟩ (fun _ _ => 3/5) [0]
      (by simp)).2
    (by norm_num [bestDistance, faceDistances, listMin])

/-- C4 counterexample: the source computes `confidence = 1.0 -
best_match_distance` with no clamping. For a one-identity index, tolerance
3/5 and a probe at distance 2 the reported confidence is `-1`: it is not
`max 0 (1 - best_distance)` and it is negative, refuting the claimed clamp
to `[0, 1]`. -/
theorem matcher_confidence_C4_counterexample :
    (recognizeEncoding ⟨[[0]], [5], ["A"], 3/5⟩ (fun _ _ => 2)
        [0]).confidence = -1 ∧
    (recognizeEncoding ⟨[[0]], [5], ["A"], 3/5⟩ (fun _ _ => 2)
        [0]).confidence ≠
      max 0 (1 - bestDistance ⟨[[0]], [5], ["A"], 3/5⟩ (fun _ _ => 2) [0]) ∧
    (recognizeEncoding ⟨[[0]], [5], ["A"], 3/5⟩ (fun _ _ => 2)
        [0]).confidence < 0 := by
  refine ⟨?_, ?_, ?_⟩ <;>
    norm_num [recognizeEncoding, bestDistance, faceDistances, listMin,
      argminIdx]

/-- C4 amended: for every non-empty index the confidence is exactly
`1 - best_distance`, unclamped. It stays in `[0, 1]` only as long as the
best distance lies in `[0, 1]`; as soon as the best distance exceeds 1 the
reported confidence is negative (in the unknown branch in particular),
contrary to the spec's `max(0.0, ...)` clamp. -/
theorem matcher_confidence_C4 (svc : FaceRecognitionService)
    (dist : Embedding → Embedding → ℚ) (probe : Embedding)
    (h : svc.known_face_encodings ≠ []) :
    (recognizeEncoding svc dist probe).confidence =
      1 - bestDistance svc dist probe ∧
    (0 ≤ bestDistance svc dist probe →
      (recognizeEncoding svc dist probe).confidence ≤ 1) ∧
    (bestDistance svc dist probe ≤ 1 →
      0 ≤ (recognizeEncoding svc dist probe).confidence) ∧
    (1 < bestDistance svc dist probe →
      (recognizeEncoding svc dist probe).confidence < 0) := by
  have hc := recognizeEncoding_confidence_eq svc dist probe h
  refine ⟨hc, ?_, ?_, ?_⟩ <;> rw [hc] <;> intro hb <;> linarith

/-- Witness for C4 amended at a concrete index with best distance 2:
confidence is `1 - 2` and negative. -/
theorem matcher_confidence_C4_witness :
    (recognizeEncoding ⟨[[0]], [5], ["A"], 3/5⟩ (fun _ _ => 2)
        [0]).confidence =
      1 - bestDistance ⟨[[0]], [5], ["A"], 3/5⟩ (fun _ _ => 2) [0] ∧
    (recognizeEncoding ⟨[[0]], [5], ["A"], 3/5⟩ (fun _ _ => 2)
        [0]).confidence < 0 :=
  ⟨(matcher_confidence_C4 ⟨[[0]], [5], ["A"], 3/5⟩ (fun _ _ => 2) [0]
      (by simp)).1,
   (matcher_confidence_C4 ⟨[[0]], [5], ["A"], 3/5⟩ (fun _ _ => 2) [0]
      (by simp)).2.2.2
    (by norm_num [bestDistance, faceDistances, listMin])⟩

/-- C5: for a stored user with role `student`, an `entry` attempt at a
time of day outside the inclusive 08:30–09:00 window (and an `exit` attempt
outside inclusive 13:30–14:00) is rejected with a 403 before any row is
written — the returned state carries no new record and does not depend on
the log table, so a later attempt inside the window succeeds; attempts at
any instant inside the window, both boundary instants included, append
exactly the new attendance row. The check reads only the wall-clock time of
day (`datetime.now().time()`), hence is date-independent by construction. -/
theorem student_window_C5 (users : List User) (logs : List AttendanceRecord)
    (req : AttendanceLogCreate) (t : ℚ) (u : User)
    (hu : users.find? (fun v => v.id == req.user_id) = some u)
    (hrole : u.role = "student") :
    (req.event_type = "entry" → ¬(signin_start ≤ t ∧ t ≤ signin_end) →
      log_attendance users logs req t = .error .outsideTimeWindow) ∧
    (req.event_type = "exit" → ¬(logout_start ≤ t ∧ t ≤ logout_end) →
      log_attendance users logs req t = .error .outsideTimeWindow) ∧
    (req.event_type = "entry" → signin_start ≤ t → t ≤ signin_end →
      log_attendance users logs req t = .ok (logs ++
        [{ user_id := req.user_id, event_type := req.event_type }])) ∧
    (req.event_type = "exit" → logout_start ≤ t → t ≤ logout_end →
      log_attendance users logs req t = .ok (logs ++
        [{ user_id := req.user_id, event_type := req.event_type }])) := by
  have hne : ("entry" : String) ≠ "exit" := by decide
  refine ⟨?_, ?_, ?_, ?_⟩
  · intro hev hout
    simp only [log_attendance, hu]
    rw [if_pos ⟨hrole, hev, hout⟩]
  · intro hev hout
    simp only [log_attendance, hu]
    rw [if_neg (fun hc => hne (hc.2.1.symm.trans hev)),
      if_pos ⟨hrole, hev, hout⟩]
  · intro hev h1 h2
    simp only [log_attendance, hu]
    rw [if_neg (fun hc => hc.2.2 ⟨h1, h2⟩),
      if_neg (fun hc => hne (hev.symm.trans hc.2.1))]
  · intro hev h1 h2
    simp only [log_attendance, hu]
    rw [if_neg (fun hc => hne (hc.2.1.symm.trans hev)),
      if_neg (fun hc => hc.2.2 ⟨h1, h2⟩)]

/-- Witness for C5: student user 1. An entry at 09:05 is rejected; entries
at 08:45 and at both boundary instants 08:30 and 09:00 are accepted; an exit
at 13:00 is rejected, exits at the 13:30 and 14:00 boundaries are
accepted. -/
theorem student_window_C5_witness :
    log_attendance [{ id := 1, role := "student" }] []
        { user_id := 1, event_type := "entry" } (9 * 3600 + 5 * 60) =
      .error .outsideTimeWindow ∧
    log_attendance [{ id := 1, role := "student" }] []
        { user_id := 1, event_type := "entry" } (8 * 3600 + 45 * 60) =
      .ok [{ user_id := 1, event_type := "entry" }] ∧
    log_attendance [{ id := 1, role := "student" }] []
        { user_id := 1, event_type := "entry" } signin_start =
      .ok [{ user_id := 1, event_type := "entry" }] ∧
    log_attendance [{ id := 1, role := "student" }] []
        { user_id := 1, event_type := "entry" } signin_end =
      .ok [{ user_id := 1, event_type := "entry" }] ∧
    log_attendance [{ id := 1, role := "student" }] []
        { user_id := 1, event_type := "exit" } (13 * 3600) =
      .error .outsideTimeWindow ∧
    log_attendance [{ id := 1, role := "student" }] []
        { user_id := 1, event_type := "exit" } logout_start =
      .ok [{ user_id := 1, event_type := "exit" }] ∧
    log_attendance [{ id := 1, role := "student" }] []
        { user_id := 1, event_type := "exit" } logout_end =
      .ok [{ user_id := 1, event_type := "exit" }] :=
  ⟨(student_window_C5 [{ id := 1, role := "student" }] []
      { user_id := 1, event_type := "entry" } (9 * 3600 + 5 * 60)
      { id := 1, role := "student" } rfl rfl).1 rfl
      (by norm_num [signin_start, signin_end]),
   (student_window_C5 [{ id := 1, role := "student" }] []
      { user_id := 1, event_type := "entry" } (8 * 3600 + 45 * 60)
      { id := 1, role := "student" } rfl rfl).2.2.1 rfl
      (by norm_num [signin_start]) (by norm_num [signin_end]),
   (student_window_C5 [{ id := 1, role := "student" }] []
      { user_id := 1, event_type := "entry" } signin_start
      { id := 1, role := "student" } rfl rfl).2.2.1 rfl le_rfl
      (by norm_num [signin_start, signin_end]),
   (student_window_C5 [{ id := 1, role := "student" }] []
      { user_id := 1, event_type := "entry" } signin_end
      { id := 1, role := "student" } rfl rfl).2.2.1 rfl
      (by norm_num [signin_start, signin_end]) le_rfl,
   (student_window_C5 [{ id := 1, role := "student" }] []
      { user_id := 1, event_type := "exit" } (13 * 3600)
      { id := 1, role := "student" } rfl rfl).2.1 rfl
      (by norm_num [logout_start, logout_end]),
   (student_window_C5 [{ id := 1, role := "student" }] []
      { user_id := 1, event_type := "exit" } logout_start
      { id := 1, role := "student" } rfl rfl).2.2.2 rfl le_rfl
      (by norm_num [logout_start, logout_end]),
   (student_window_C5 [{ id := 1, role := "student" }] []
      { user_id := 1, event_type := "exit" } logout_end
      { id := 1, role := "student" } rfl rfl).2.2.2 rfl
      (by norm_num [logout_start, logout_end]) le_rfl⟩

/-- C7 counterexample: `reload_known_faces` performs no duplicate check —
there is no `DuplicateIdentityError` anywhere in the source. Reloading over
a store holding two records with the same `user_id` 7 succeeds and yields
the id twice; the prior index content (id 99) is discarded rather than
retained, refuting both the claimed rejection and the claimed retention. -/
theorem reload_duplicate_C7_counterexample :
    (reload_known_faces ⟨[[5]], [99], ["Old"], 3/5⟩
        [savedRecord 7 "A" [0], savedRecord 7 "B" [1]]).known_face_ids =
      [7, 7] ∧
    99 ∉ (reload_known_faces ⟨[[5]], [99], ["Old"], 3/5⟩
        [savedRecord 7 "A" [0], savedRecord 7 "B" [1]]).known_face_ids := by
  refine ⟨rfl, by decide⟩

/-- C7 amended: reload never rejects anything — it unconditionally replaces
the index with whatever the store yields (duplicates included; the prior
contents are cleared, not retained). A reload over an empty store does
succeed and produces the valid empty index, under which every probe matches
as unknown with confidence 0. -/
theorem reload_C7 (svc : FaceRecognitionService) (store : List RawRecord) :
    (reload_known_faces svc store).known_face_ids = loadedIds store ∧
    (store = [] → reload_known_faces svc store =
      { known_face_encodings := [], known_face_ids := [],
        known_face_names := [], tolerance := svc.tolerance }) ∧
    (∀ (dist : Embedding → Embedding → ℚ) (probe : Embedding), store = [] →
      recognizeEncoding (reload_known_faces svc store) dist probe =
        { user_id := none, name := "Unknown", confidence := 0,
          is_recognized := false }) := by
  have hspec := load_known_faces_spec store
    { svc with
        known_face_encodings := []
        known_face_ids := []
        known_face_names := [] }
  refine ⟨?_, ?_, ?_⟩
  · unfold reload_known_faces
    rw [hspec]
    simp
  · intro hs
    subst hs
    unfold reload_known_faces
    rw [hspec]
    simp [loadedEncodings, loadedIds, loadedNames]
  · intro dist probe hs
    subst hs
    unfold reload_known_faces
    rw [hspec]
    simp [loadedEncodings, loadedIds, loadedNames, recognizeEncoding]

/-- Witness for C7 amended: reloading identity 3 over a non-empty prior
index yields exactly id 3; reloading the empty store over the same prior
index yields the empty index and an unknown match for a probe. -/
theorem reload_C7_witness :
    (reload_known_faces ⟨[[5]], [99], ["Old"], 3/5⟩
        [savedRecord 3 "C" [2]]).known_face_ids =
      loadedIds [savedRecord 3 "C" [2]] ∧
    reload_known_faces ⟨[[5]], [99], ["Old"], 3/5⟩ [] =
      { known_face_encodings := [], known_face_ids := [],
        known_face_names := [], tolerance := 3/5 } ∧
    recognizeEncoding (reload_known_faces ⟨[[5]], [99], ["Old"], 3/5⟩ [])
        (fun _ _ => 1/2) [0] =
      { user_id := none, name := "Unknown", confidence := 0,
        is_recognized := false } :=
  ⟨(reload_C7 ⟨[[5]], [99], ["Old"], 3/5⟩ [savedRecord 3 "C" [2]]).1,
   (reload_C7 ⟨[[5]], [99], ["Old"], 3/5⟩ []).2.1 rfl,
   (reload_C7 ⟨[[5]], [99], ["Old"], 3/5⟩ []).2.2 (fun _ _ => 1/2) [0] rfl⟩

/-- C8: for every complete store `S` and every prior index state, a reload
with `S` followed by reading the three lists yields exactly the records of
`S`, in order — nothing of the prior state survives and nothing of `S` is
missing. -/
theorem reload_roundtrip_C8 (svc : FaceRecognitionService)
    (store : List RawRecord) (h : ∀ r ∈ store, r.complete) :
    (reload_known_faces svc store).known_face_encodings =
      store.map (fun r => r.encoding.getD []) ∧
    (reload_known_faces svc store).known_face_ids =
      store.map (fun r => r.user_id.getD 0) ∧
    (reload_known_faces svc store).known_face_names =
      store.map (fun r => r.name.getD "") := by
  unfold reload_known_faces
  rw [load_known_faces_spec]
  simp [loadedEncodings_of_complete store h, loadedIds_of_complete store h,
    loadedNames_of_complete store h]

/-- Witness for C8: reloading records A and B over a non-trivial prior index
yields exactly A and B. -/
theorem reload_roundtrip_C8_witness :
    (reload_known_faces ⟨[[9]], [99], ["Old"], 3/5⟩
        [savedRecord 1 "A" [0], savedRecord 2 "B" [1]]).known_face_encodings =
      [[0], [1]] ∧
    (reload_known_faces ⟨[[9]], [99], ["Old"], 3/5⟩
        [savedRecord 1 "A" [0], savedRecord 2 "B" [1]]).known_face_ids =
      [1, 2] ∧
    (reload_known_faces ⟨[[9]], [99], ["Old"], 3/5⟩
        [savedRecord 1 "A" [0], savedRecord 2 "B" [1]]).known_face_names =
      ["A", "B"] :=
  reload_roundtrip_C8 ⟨[[9]], [99], ["Old"], 3/5⟩
    [savedRecord 1 "A" [0], savedRecord 2 "B" [1]] (by decide)

/-! ## Unknown results bypass the cooldown state -/

theorem processResult_unknown (s : CameraState) (now : ℚ)
    (r : RecognitionResult) (hr : r.is_recognized = false) :
    processResult s now r =
      { logs := s.logs, unknown_count := s.unknown_count + 1 } := by
  simp [processResult, hr]

theorem processResults_unknown : ∀ (rs : List RecognitionResult)
    (s : CameraState) (now : ℚ), (∀ r ∈ rs, r.is_recognized = false) →
    processResults s now rs =
      { logs := s.logs, unknown_count := s.unknown_count + rs.length }
  | [] => by intro s now _; simp [processResults]
  | r :: rest => by
    intro s now h
    have hstep : processResults s now (r :: rest) =
        processResults (processResult s now r) now rest := rfl
    rw [hstep, processResult_unknown s now r (h r (by simp)),
      processResults_unknown rest _ now
        (fun x hx => h x (List.mem_cons_of_mem _ hx))]
    simp only [List.length_cons]
    congr 1
    omega

/-- C9: an unrecognized result is handled by the `else` branch only — it
inserts one `UnknownFace` row and leaves the attendance log table untouched,
for *every* prior table, so it neither reads nor updates any identity's
cooldown state; a batch of unknown results is reported once each with no
deduplication (the unknown count grows by exactly the number of results);
and for a one-identity index, a probe at distance 9/10 under tolerance 3/5
yields the unknown result with confidence 1/10. -/
theorem unknown_bypass_C9 :
    (∀ (s : CameraState) (now : ℚ) (r : RecognitionResult),
      r.is_recognized = false →
      processResult s now r =
        { logs := s.logs, unknown_count := s.unknown_count + 1 }) ∧
    (∀ (s : CameraState) (now : ℚ) (rs : List RecognitionResult),
      (∀ r ∈ rs, r.is_recognized = false) →
      processResults s now rs =
        { logs := s.logs, unknown_count := s.unknown_count + rs.length }) ∧
    recognizeEncoding ⟨[[0]], [5], ["A"], 3/5⟩ (fun _ _ => 9/10) [0] =
      { user_id := none, name := "Unknown", confidence := 1/10,
        is_recognized := false } := by
  refine ⟨fun s now r hr => processResult_unknown s now r hr,
    fun s now rs h => processResults_unknown rs s now h, ?_⟩
  norm_num [recognizeEncoding, faceDistances, listMin, argminIdx]

/-- Witness for C9: one unknown result over a non-empty log table increments
only the unknown count; two unknown results increment it twice. -/
theorem unknown_bypass_C9_witness :
    processResult
        { logs := [{ user_id := 7, timestamp := 0 }], unknown_count := 0 } 1
        { user_id := none, name := "Unknown", confidence := 1/10,
          is_recognized := false } =
      { logs := [{ user_id := 7, timestamp := 0 }], unknown_count := 1 } ∧
    processResults { logs := [], unknown_count := 0 } 1
        [{ user_id := none, name := "Unknown", confidence := 1/10,
           is_recognized := false },
         { user_id := none, name := "Unknown", confidence := 1/10,
           is_recognized := false }] =
      { logs := [], unknown_count := 2 } :=
  ⟨unknown_bypass_C9.1
      { logs := [{ user_id := 7, timestamp := 0 }], unknown_count := 0 } 1
      { user_id := none, name := "Unknown", confidence := 1/10,
        is_recognized := false } rfl,
   unknown_bypass_C9.2.1 { logs := [], unknown_count := 0 } 1
      [{ user_id := none, name := "Unknown", confidence := 1/10,
         is_recognized := false },
       { user_id := none, name := "Unknown", confidence := 1/10,
         is_recognized := false }]
      (by intro r hr; simp at hr; subst hr; rfl)⟩

/-! ## Sequences of load/reload calls and the parallel-lists invariant -/

/-- The two index-mutating operations of `FaceRecognitionService`. -/
inductive FaceOp where
  | load (store : List RawRecord)
  | reload (store : List RawRecord)
deriving Repr, DecidableEq

def opStore : FaceOp → List RawRecord
  | .load s => s
  | .reload s => s

def applyOp (svc : FaceRecognitionService) : FaceOp → FaceRecognitionService
  | .load s => load_known_faces svc s
  | .reload s => reload_known_faces svc s

def runOps (svc : FaceRecognitionService) (ops : List FaceOp) :
    FaceRecognitionService :=
  ops.foldl applyOp svc

/-- `__init__`: the three lists start empty and `load_known_faces` runs
once over the initial store. -/
def initService (tol : ℚ) (store0 : List RawRecord) :
    FaceRecognitionService :=
  load_known_faces
    { known_face_encodings := [], known_face_ids := [],
      known_face_names := [], tolerance := tol } store0

/-- The three parallel lists are position-wise projections of one common
list of complete stored records drawn from `pool`: equal lengths, and the
`i`-th encoding, id and name all originate from the same record. -/
def ParallelAligned (svc : FaceRecognitionService)
    (pool : List RawRecord) : Prop :=
  ∃ rs : List RawRecord,
    (∀ r ∈ rs, r.complete ∧ r ∈ pool) ∧
    svc.known_face_encodings = rs.map (fun r => r.encoding.getD []) ∧
    svc.known_face_ids = rs.map (fun r => r.user_id.getD 0) ∧
    svc.known_face_names = rs.map (fun r => r.name.getD "")

theorem parallelAligned_mono (svc : FaceRecognitionService)
    (pool pool' : List RawRecord) (hsub : ∀ r ∈ pool, r ∈ pool')
    (h : ParallelAligned svc pool) : ParallelAligned svc pool' := by
  obtain ⟨rs, hmem, he, hi, hn⟩ := h
  exact ⟨rs, fun r hr => ⟨(hmem r hr).1, hsub r (hmem r hr).2⟩, he, hi, hn⟩

theorem parallelAligned_load (svc : FaceRecognitionService)
    (pool s : List RawRecord) (h : ParallelAligned svc pool)
    (hs : ∀ r ∈ s, r.complete) :
    ParallelAligned (load_known_faces svc s) (pool ++ s) := by
  obtain ⟨rs, hmem, he, hi, hn⟩ := h
  have hspec := load_known_faces_spec s svc
  refine ⟨rs ++ s, ?_, ?_, ?_, ?_⟩
  · intro r hr
    rcases List.mem_append.1 hr with h' | h'
    · exact ⟨(hmem r h').1, List.mem_append_left _ (hmem r h').2⟩
    · exact ⟨hs r h', List.mem_append_right _ h'⟩
  · simp only [hspec]
    rw [he, loadedEncodings_of_complete s hs, List.map_append]
  · simp only [hspec]
    rw [hi, loadedIds_of_complete s hs, List.map_append]
  · simp only [hspec]
    rw [hn, loadedNames_of_complete s hs, List.map_append]

theorem parallelAligned_reload (svc : FaceRecognitionService)
    (pool s : List RawRecord) (hs : ∀ r ∈ s, r.complete) :
    ParallelAligned (reload_known_faces svc s) (pool ++ s) := by
  refine ⟨s, fun r hr => ⟨hs r hr, List.mem_append_right _ hr⟩, ?_, ?_, ?_⟩
  all_goals
    unfold reload_known_faces
    rw [load_known_faces_spec]
    simp [loadedEncodings_of_complete s hs, loadedIds_of_complete s hs,
      loadedNames_of_complete s hs]

theorem runOps_aligned : ∀ (ops : List FaceOp)
    (svc : FaceRecognitionService) (pool : List RawRecord),
    ParallelAligned svc pool →
    (∀ op ∈ ops, ∀ r ∈ opStore op, r.complete) →
    ParallelAligned (runOps svc ops) (pool ++ (ops.map opStore).flatten)
  | [] => by
    intro svc pool h _
    simpa [runOps] using h
  | op :: rest => by
    intro svc pool h hops
    have hstep : runOps svc (op :: rest) = runOps (applyOp svc op) rest := rfl
    have hopc : ∀ r ∈ opStore op, r.complete := hops op (by simp)
    have hnext : ParallelAligned (applyOp svc op) (pool ++ opStore op) := by
      cases op with
      | load s => exact parallelAligned_load svc pool s h hopc
      | reload s => exact parallelAligned_reload svc pool s hopc
    have ih := runOps_aligned rest (applyOp svc op) (pool ++ opStore op)
      hnext (fun o ho r hr => hops o (List.mem_cons_of_mem _ ho) r hr)
    have hpool : (pool ++ opStore op) ++ (rest.map opStore).flatten =
        pool ++ ((op :: rest).map opStore).flatten := by
      simp [List.append_assoc]
    rw [hstep, ← hpool]
    exact ih

/-- C10: starting from construction (empty lists, then one load of the
initial store) and applying any sequence of `load_known_faces` /
`reload_known_faces` calls over complete stored records (as written by
`save_face_encoding`), the three parallel lists always have equal lengths
and are position-wise the projections of one common list of stored records
drawn from the supplied stores — the `i`-th encoding, id and name originate
from the same record. -/
theorem parallel_lists_C10 (tol : ℚ) (store0 : List RawRecord)
    (ops : List FaceOp) (h0 : ∀ r ∈ store0, r.complete)
    (hops : ∀ op ∈ ops, ∀ r ∈ opStore op, r.complete) :
    (runOps (initService tol store0) ops).known_face_ids.length =
      (runOps (initService tol store0) ops).known_face_encodings.length ∧
    (runOps (initService tol store0) ops).known_face_names.length =
      (runOps (initService tol store0) ops).known_face_encodings.length ∧
    ParallelAligned (runOps (initService tol store0) ops)
      (store0 ++ (ops.map opStore).flatten) := by
  have hempty : ParallelAligned
      { known_face_encodings := [], known_face_ids := [],
        known_face_names := [], tolerance := tol } [] :=
    ⟨[], by simp, by simp, by simp, by simp⟩
  have hinit : ParallelAligned (initService tol store0) store0 := by
    have := parallelAligned_load
      { known_face_encodings := [], known_face_ids := [],
        known_face_names := [], tolerance := tol } [] store0 hempty h0
    simpa [initService] using this
  have halign := runOps_aligned ops (initService tol store0) store0 hinit hops
  obtain ⟨rs, hmem, he, hi, hn⟩ := halign
  refine ⟨?_, ?_, ⟨rs, hmem, he, hi, hn⟩⟩
  · rw [he, hi]
    simp
  · rw [he, hn]
    simp

/-- Witness for C10: a concrete run — construction over store A, then a
load of store B, then a reload of store C — keeps the three lists aligned. -/
theorem parallel_lists_C10_witness :
    (runOps (initService (3/5) [savedRecord 1 "A" [0]])
        [FaceOp.load [savedRecord 2 "B" [1]],
         FaceOp.reload [savedRecord 3 "C" [2]]]).known_face_ids.length =
      (runOps (initService (3/5) [savedRecord 1 "A" [0]])
        [FaceOp.load [savedRecord 2 "B" [1]],
         FaceOp.reload [savedRecord 3 "C" [2]]]).known_face_encodings.length ∧
    (runOps (initService (3/5) [savedRecord 1 "A" [0]])
        [FaceOp.load [savedRecord 2 "B" [1]],
         FaceOp.reload [savedRecord 3 "C" [2]]]).known_face_names.length =
      (runOps (initService (3/5) [savedRecord 1 "A" [0]])
        [FaceOp.load [savedRecord 2 "B" [1]],
         FaceOp.reload [savedRecord 3 "C" [2]]]).known_face_encodings.length ∧
    ParallelAligned
      (runOps (initService (3/5) [savedRecord 1 "A" [0]])
        [FaceOp.load [savedRecord 2 "B" [1]],
         FaceOp.reload [savedRecord 3 "C" [2]]])
      ([savedRecord 1 "A" [0]] ++
        (([FaceOp.load [savedRecord 2 "B" [1]],
           FaceOp.reload [savedRecord 3 "C" [2]]]).map opStore).flatten) :=
  parallel_lists_C10 (3/5) [savedRecord 1 "A" [0]]
    [FaceOp.load [savedRecord 2 "B" [1]],
     FaceOp.reload [savedRecord 3 "C" [2]]]
    (by decide) (by decide)
